import Mathlib

/-
Shallow embedding of the voice-assistant backend (src/backend.py).

External services (speech-to-text, reasoning/LLM, text-to-speech, weather)
are modelled as oracles packaged in a `TurnEnv`: each field records the
outcome the external call would produce.  Pure control flow, history
mutation, trimming, tool dispatch and the websocket session loop are
translated directly from the source.
-/

namespace VoiceBackend

/-- A tool call object from the reasoning service: `{id, function: {name, arguments}}`.
`argumentsJson = none` models an `arguments` string that is not valid JSON,
so that `json.loads` raises; `some args` is the parsed string-keyed mapping. -/
structure ToolCall where
  id : String
  fnName : String
  argumentsJson : Option (List (String × String))
deriving Repr, DecidableEq

/-- The `message` object of a reasoning-service response.
`content : Option (Option String)`: `none` means the `content` key is absent,
`some none` means the key is present with JSON `null`, `some (some s)` a string.
`tool_calls = []` covers the key being absent, `null`, or an empty list
(all falsy under Python truthiness at line 193 of backend.py). -/
structure LLMMessage where
  content : Option (Option String)
  tool_calls : List ToolCall
deriving Repr, DecidableEq

/-- Outcome of one HTTP round trip to the reasoning service:
`ok` carries `result["choices"][0]["message"]`; `fail` covers a transport
error, a non-2xx status, or a response missing those fields (any exception). -/
inductive LLMCallResult where
  | ok (message : LLMMessage)
  | fail
deriving Repr, DecidableEq

/-- Outcome of the weather HTTP call for a given location: a well-formed JSON
payload (fields already rendered as strings, as the f-string renders them), an
`HTTPStatusError` with a status code and message, or any other exception. -/
inductive WeatherResp where
  | ok (name country temp feelsLike humidity descr wind : String)
  | httpStatus (status : Nat) (msg : String)
  | exc (msg : String)
deriving Repr, DecidableEq

/-- One conversation-history entry.  The four non-`system` constructors mirror
the four dict shapes appended in `chat_with_llm`; `system` exists only so the
request payloads (`payloadMessages`) can be expressed — it is never stored. -/
inductive Msg where
  | system (content : String)
  | user (content : String)
  | assistant (content : Option String)
  | assistantTool (tool_calls : List ToolCall)
  | tool (tool_call_id : String) (name : String) (content : String)
deriving Repr, DecidableEq

/-- Environment of oracles for one turn: outcomes of the external calls.
`sttResp`: `none` = transcription request raised; `some none` = JSON without a
`text` field; `some (some raw)` = raw `text` value before `.strip()`.
`llm` maps the request's message list to that call's outcome.
`tts` maps the input text (a Python string or `None`) to the synthesized bytes,
`none` meaning the synthesis call failed. -/
structure TurnEnv where
  sttResp : Option (Option String)
  llm : List Msg → LLMCallResult
  apiKey : String
  weather : String → WeatherResp
  tts : Option String → Option (List Nat)

def systemPromptTools : String :=
  "You are a helpful voice assistant. Keep responses concise and natural for voice output. When the user asks about weather, use the get_weather tool to provide accurate current information."

def systemPromptPlain : String :=
  "You are a helpful voice assistant. Keep responses concise and natural for voice output."

def fallbackNoContent : String := "I\x27m not sure how to respond to that."

def fallbackError : String :=
  "I\x27m having trouble processing your request. Please try again."

def errorMessage : String := "Failed to process audio"

/-- Python `str.strip()`: remove whitespace from both ends
(written structurally over the character list so it is kernel-computable). -/
def pyStrip (s : String) : String :=
  ⟨((s.data.dropWhile Char.isWhitespace).reverse.dropWhile
      Char.isWhitespace).reverse⟩

/-- `transcribe_audio` (backend.py lines 60-95): on success returns
`result.get('text', '').strip()`; any exception yields `None`. -/
def transcribe_audio (env : TurnEnv) : Option String :=
  match env.sttResp with
  | none => none
  | some t => some (pyStrip (t.getD ""))

/-- `get_weather` (backend.py lines 97-145): missing credential, success
formatting, 404, other HTTP error, and generic exception branches. -/
def get_weather (apiKey : String) (weather : String → WeatherResp)
    (location : String) : String :=
  if apiKey = "" then
    "Weather API key not configured. Please set WEATHER_API_KEY environment variable."
  else
    match weather location with
    | .ok name country temp feelsLike humidity descr wind =>
        "Current weather in " ++ name ++ ", " ++ country ++ ": " ++ descr ++
          ". Temperature: " ++ temp ++ "°C (feels like " ++ feelsLike ++
          "°C). Humidity: " ++ humidity ++ "%. Wind speed: " ++ wind ++ " m/s."
    | .httpStatus status msg =>
        if status = 404 then
          "Location \x27" ++ location ++ "\x27 not found. Please check the city name."
        else
          "Error fetching weather: " ++ msg
    | .exc msg => "Unable to fetch weather data: " ++ msg

/-- `execute_tool_call` (backend.py lines 147-155): dispatch on the tool name;
`arguments.get("location", "")` then the weather capability, else the
unknown-tool text. -/
def execute_tool_call (apiKey : String) (weather : String → WeatherResp)
    (tool_name : String) (arguments : List (String × String)) : String :=
  if tool_name = "get_weather" then
    get_weather apiKey weather ((arguments.lookup "location").getD "")
  else
    "Unknown tool: " ++ tool_name

/-- The `messages` list of the first reasoning request (lines 169-175):
the fixed system instruction followed by the conversation history. -/
def payloadMessages (history : List Msg) : List Msg :=
  Msg.system systemPromptTools :: history

/-- The `messages` list of the follow-up reasoning request (lines 217-223). -/
def payloadMessagesFollowUp (history : List Msg) : List Msg :=
  Msg.system systemPromptPlain :: history

/-- `self.conversation_history[-10:]` applied when the length exceeds 10
(lines 244-245). -/
def trimHistory (h : List Msg) : List Msg :=
  if h.length > 10 then h.drop (h.length - 10) else h

/-- `message.get("content", "I'm not sure how to respond to that.")`
(line 235): the default is used only when the key is absent; an explicit
JSON `null` passes through as `None`. -/
def contentOrFallback (c : Option (Option String)) : Option String :=
  match c with
  | none => some fallbackNoContent
  | some v => v

/-- Result of `chat_with_llm`: the returned reply (a Python string, or `None`
when the final content was `null`), the conversation history afterwards, and
the number of reasoning-service calls issued. -/
structure ChatOut where
  reply : Option String
  history : List Msg
  llmCalls : Nat
deriving Repr, DecidableEq

/-- `chat_with_llm` (backend.py lines 157-252).  The `try` body appends the
user message, calls the reasoning service, runs the single-level tool
protocol, substitutes the no-content fallback, appends the reply and trims;
the `except` arm returns the fixed error fallback leaving history as mutated
(a first-call failure or malformed tool arguments leave only the user entry;
a follow-up failure leaves the tool pair as well; no trim on that path). -/
def chat_with_llm (env : TurnEnv) (history0 : List Msg)
    (user_message : String) : ChatOut :=
  let h1 := history0 ++ [Msg.user user_message]
  match env.llm (payloadMessages h1) with
  | .fail => ⟨some fallbackError, h1, 1⟩
  | .ok message =>
    match message.tool_calls with
    | [] =>
      let assistant_message := contentOrFallback message.content
      ⟨assistant_message, trimHistory (h1 ++ [Msg.assistant assistant_message]), 1⟩
    | tc :: rest =>
      match tc.argumentsJson with
      | none => ⟨some fallbackError, h1, 1⟩
      | some args =>
        let tool_result := execute_tool_call env.apiKey env.weather tc.fnName args
        let h2 := h1 ++ [Msg.assistantTool (tc :: rest),
                         Msg.tool tc.id tc.fnName tool_result]
        match env.llm (payloadMessagesFollowUp h2) with
        | .fail => ⟨some fallbackError, h2, 2⟩
        | .ok message2 =>
          let assistant_message := contentOrFallback message2.content
          ⟨assistant_message,
           trimHistory (h2 ++ [Msg.assistant assistant_message]), 2⟩

/-- Result of `process_voice_input`: the synthesized audio (or `None`) and the
history afterwards. -/
structure PipelineOut where
  audio : Option (List Nat)
  history : List Msg
deriving Repr, DecidableEq

/-- `process_voice_input` (backend.py lines 280-299): transcribe; `if not text`
(i.e. `None` or empty) end the turn with no output; otherwise reason then
synthesize the reply. -/
def process_voice_input (env : TurnEnv) (history0 : List Msg) : PipelineOut :=
  match transcribe_audio env with
  | none => ⟨none, history0⟩
  | some text =>
    if text = "" then ⟨none, history0⟩
    else
      let out := chat_with_llm env history0 text
      ⟨env.tts out.reply, out.history⟩

/-- Session state owned by one websocket connection: the conversation history
of its `VoiceAssistant` and the audio accumulation buffer. -/
structure SessionState where
  history : List Msg
  buffer : List Nat
deriving Repr, DecidableEq

/-- Outbound events sent over the websocket (backend.py lines 334-379). -/
inductive Event where
  | statusProcessing
  | audioResponse (audio : List Nat)
  | errorEvent (message : String)
  | statusReady
  | statusResetComplete
deriving Repr, DecidableEq

/-- One inbound websocket message: a binary frame, or a parsed text frame of
type `audio_end`, `reset`, or anything else (ignored). -/
inductive InMsg where
  | bytes (chunk : List Nat)
  | audioEnd
  | reset
  | other
deriving Repr, DecidableEq

/-- One iteration of the `websocket_endpoint` receive loop
(backend.py lines 316-380), with the turn's external-call outcomes supplied
by `env`.  Returns the new session state and the outbound events in order.
`if audio_response:` is Python truthiness: `None` and empty bytes both take
the error branch. -/
def session_step (st : SessionState) (msg : InMsg) (env : TurnEnv) :
    SessionState × List Event :=
  match msg with
  | .bytes chunk => (⟨st.history, st.buffer ++ chunk⟩, [])
  | .audioEnd =>
    if st.buffer.length > 0 then
      let out := process_voice_input env st.history
      let terminal :=
        match out.audio with
        | some audio =>
          if audio.length > 0 then Event.audioResponse audio
          else Event.errorEvent errorMessage
        | none => Event.errorEvent errorMessage
      (⟨out.history, []⟩, [Event.statusProcessing, terminal, Event.statusReady])
    else (st, [])
  | .reset => (⟨[], []⟩, [Event.statusResetComplete])
  | .other => (st, [])

/-- Session state at connection establishment (lines 312-313). -/
def initialSession : SessionState := ⟨[], []⟩

/-- Run the receive loop over a whole inbound trace, collecting all events. -/
def session_run (st : SessionState) (trace : List (InMsg × TurnEnv)) :
    SessionState × List Event :=
  match trace with
  | [] => (st, [])
  | (m, env) :: rest =>
    let s1 := session_step st m env
    let s2 := session_run s1.1 rest
    (s2.1, s1.2 ++ s2.2)

/-- The tool-pairing invariant on a history: every `assistantTool` entry is
immediately followed by a `tool` entry whose correlation id and name are those
of the first listed tool call. -/
def toolPaired : List Msg → Bool
  | [] => true
  | Msg.assistantTool tcs :: rest =>
    match tcs, rest with
    | tc :: _, Msg.tool cid name _ :: rest2 =>
      cid == tc.id && name == tc.fnName && toolPaired rest2
    | _, _ => false
  | Msg.system _ :: rest => toolPaired rest
  | Msg.user _ :: rest => toolPaired rest
  | Msg.assistant _ :: rest => toolPaired rest
  | Msg.tool _ _ _ :: rest => toolPaired rest

/-- Whether a stored history contains a system-instruction entry. -/
def hasSystemEntry (h : List Msg) : Bool :=
  h.any fun m => match m with | Msg.system _ => true | _ => false

theorem toolPaired_tail {x : Msg} {xs : List Msg}
    (h : toolPaired (x :: xs) = true) : toolPaired xs = true := by
  cases x with
  | assistantTool tcs =>
    cases tcs with
    | nil => simp [toolPaired] at h
    | cons tc r =>
      cases xs with
      | nil => simp [toolPaired] at h
      | cons y rest2 =>
        cases y <;> simp [toolPaired] at h ⊢
        exact h.2
  | system c => simpa [toolPaired] using h
  | user c => simpa [toolPaired] using h
  | assistant c => simpa [toolPaired] using h
  | tool a b c => simpa [toolPaired] using h

theorem toolPaired_drop (n : Nat) :
    ∀ l : List Msg, toolPaired l = true → toolPaired (l.drop n) = true := by
  induction n with
  | zero => intro l h; simpa using h
  | succ m ih =>
    intro l h
    cases l with
    | nil => simpa using h
    | cons x xs => simpa using ih xs (toolPaired_tail h)

theorem toolPaired_append :
    ∀ l1 l2 : List Msg, toolPaired l1 = true → toolPaired l2 = true →
      toolPaired (l1 ++ l2) = true
  | [], l2, _, h2 => by simpa using h2
  | Msg.assistantTool (tc :: r) :: Msg.tool cid name c :: rest2, l2, h1, h2 => by
    simp [toolPaired] at h1 ⊢
    exact ⟨h1.1, toolPaired_append rest2 l2 h1.2 h2⟩
  | Msg.assistantTool [] :: rest, l2, h1, _ => by simp [toolPaired] at h1
  | [Msg.assistantTool (tc :: r)], l2, h1, _ => by simp [toolPaired] at h1
  | Msg.assistantTool (tc :: r) :: Msg.system c :: rest, l2, h1, _ => by
    simp [toolPaired] at h1
  | Msg.assistantTool (tc :: r) :: Msg.user c :: rest, l2, h1, _ => by
    simp [toolPaired] at h1
  | Msg.assistantTool (tc :: r) :: Msg.assistant c :: rest, l2, h1, _ => by
    simp [toolPaired] at h1
  | Msg.assistantTool (tc :: r) :: Msg.assistantTool tcs2 :: rest, l2, h1, _ => by
    simp [toolPaired] at h1
  | Msg.system c :: rest, l2, h1, h2 => by
    simp [toolPaired] at h1 ⊢
    exact toolPaired_append rest l2 h1 h2
  | Msg.user c :: rest, l2, h1, h2 => by
    simp [toolPaired] at h1 ⊢
    exact toolPaired_append rest l2 h1 h2
  | Msg.assistant c :: rest, l2, h1, h2 => by
    simp [toolPaired] at h1 ⊢
    exact toolPaired_append rest l2 h1 h2
  | Msg.tool a b c :: rest, l2, h1, h2 => by
    simp [toolPaired] at h1 ⊢
    exact toolPaired_append rest l2 h1 h2

theorem toolPaired_trim (l : List Msg) (h : toolPaired l = true) :
    toolPaired (trimHistory l) = true := by
  unfold trimHistory
  split
  · exact toolPaired_drop _ _ h
  · exact h

theorem toolPaired_chat (env : TurnEnv) (h0 : List Msg) (u : String)
    (h : toolPaired h0 = true) :
    toolPaired (chat_with_llm env h0 u).history = true := by
  have hu : toolPaired (h0 ++ [Msg.user u]) = true :=
    toolPaired_append _ _ h (by simp [toolPaired])
  cases hllm : env.llm (payloadMessages (h0 ++ [Msg.user u])) with
  | fail => simpa [chat_with_llm, hllm] using hu
  | ok message =>
    cases htc : message.tool_calls with
    | nil =>
      simp only [chat_with_llm, hllm, htc]
      have hx := toolPaired_trim _
        (toolPaired_append (h0 ++ [Msg.user u])
          [Msg.assistant (contentOrFallback message.content)] hu
          (by simp [toolPaired]))
      simpa using hx
    | cons tc rest =>
      cases hargs : tc.argumentsJson with
      | none => simpa [chat_with_llm, hllm, htc, hargs] using hu
      | some args =>
        have hpair : toolPaired ((h0 ++ [Msg.user u]) ++
            [Msg.assistantTool (tc :: rest),
             Msg.tool tc.id tc.fnName
               (execute_tool_call env.apiKey env.weather tc.fnName args)]) = true :=
          toolPaired_append _ _ hu (by simp [toolPaired])
        cases hllm2 : env.llm (payloadMessagesFollowUp (h0 ++
            [Msg.user u, Msg.assistantTool (tc :: rest),
             Msg.tool tc.id tc.fnName
               (execute_tool_call env.apiKey env.weather tc.fnName args)])) with
        | fail => simpa [chat_with_llm, hllm, htc, hargs, hllm2] using hpair
        | ok m2 =>
          simp only [chat_with_llm, hllm, htc, hargs]
          have hx := toolPaired_trim _
            (toolPaired_append _
              [Msg.assistant (contentOrFallback m2.content)] hpair
              (by simp [toolPaired]))
          simp only [List.append_assoc, List.cons_append, List.nil_append] at hx hllm2 ⊢
          simp [hllm2]
          simpa using hx

theorem toolPaired_process (env : TurnEnv) (h0 : List Msg)
    (h : toolPaired h0 = true) :
    toolPaired (process_voice_input env h0).history = true := by
  unfold process_voice_input
  cases transcribe_audio env with
  | none => simpa using h
  | some text =>
    by_cases ht : text = "" <;> simp [ht]
    · exact h
    · exact toolPaired_chat env h0 text h

theorem toolPaired_step (st : SessionState) (msg : InMsg) (env : TurnEnv)
    (h : toolPaired st.history = true) :
    toolPaired (session_step st msg env).1.history = true := by
  cases msg with
  | bytes chunk => simpa [session_step] using h
  | audioEnd =>
    by_cases hb : st.buffer.length > 0 <;> simp [session_step, hb]
    · exact toolPaired_process env st.history h
    · exact h
  | reset => simp [session_step, toolPaired]
  | other => simpa [session_step] using h

theorem toolPaired_run :
    ∀ (trace : List (InMsg × TurnEnv)) (st : SessionState),
      toolPaired st.history = true →
      toolPaired (session_run st trace).1.history = true
  | [], st, h => by simpa [session_run] using h
  | (m, env) :: rest, st, h => by
    simp only [session_run]
    exact toolPaired_run rest _ (toolPaired_step st m env h)

theorem hasSystemEntry_append (l1 l2 : List Msg) :
    hasSystemEntry (l1 ++ l2) = (hasSystemEntry l1 || hasSystemEntry l2) := by
  simp [hasSystemEntry]

theorem hasSystemEntry_drop (n : Nat) (l : List Msg)
    (h : hasSystemEntry l = false) : hasSystemEntry (l.drop n) = false := by
  simp only [hasSystemEntry, List.any_eq_false] at h ⊢
  intro x hx
  exact h x (List.mem_of_mem_drop hx)

theorem hasSystemEntry_trim (l : List Msg) (h : hasSystemEntry l = false) :
    hasSystemEntry (trimHistory l) = false := by
  unfold trimHistory
  split
  · exact hasSystemEntry_drop _ _ h
  · exact h

theorem hasSystemEntry_chat (env : TurnEnv) (h0 : List Msg) (u : String)
    (h : hasSystemEntry h0 = false) :
    hasSystemEntry (chat_with_llm env h0 u).history = false := by
  have hu : hasSystemEntry (h0 ++ [Msg.user u]) = false := by
    rw [hasSystemEntry_append, h]
    simp [hasSystemEntry]
  cases hllm : env.llm (payloadMessages (h0 ++ [Msg.user u])) with
  | fail => simpa [chat_with_llm, hllm] using hu
  | ok message =>
    cases htc : message.tool_calls with
    | nil =>
      simp only [chat_with_llm, hllm, htc]
      have hx := hasSystemEntry_trim
        ((h0 ++ [Msg.user u]) ++ [Msg.assistant (contentOrFallback message.content)])
        (by rw [hasSystemEntry_append, hu]; simp [hasSystemEntry])
      simpa using hx
    | cons tc rest =>
      cases hargs : tc.argumentsJson with
      | none => simpa [chat_with_llm, hllm, htc, hargs] using hu
      | some args =>
        have hpair : hasSystemEntry ((h0 ++ [Msg.user u]) ++
            [Msg.assistantTool (tc :: rest),
             Msg.tool tc.id tc.fnName
               (execute_tool_call env.apiKey env.weather tc.fnName args)]) = false := by
          rw [hasSystemEntry_append, hu]
          simp [hasSystemEntry]
        cases hllm2 : env.llm (payloadMessagesFollowUp (h0 ++
            [Msg.user u, Msg.assistantTool (tc :: rest),
             Msg.tool tc.id tc.fnName
               (execute_tool_call env.apiKey env.weather tc.fnName args)])) with
        | fail => simpa [chat_with_llm, hllm, htc, hargs, hllm2] using hpair
        | ok m2 =>
          simp only [chat_with_llm, hllm, htc, hargs]
          have hx := hasSystemEntry_trim
            (((h0 ++ [Msg.user u]) ++
              [Msg.assistantTool (tc :: rest),
               Msg.tool tc.id tc.fnName
                 (execute_tool_call env.apiKey env.weather tc.fnName args)]) ++
             [Msg.assistant (contentOrFallback m2.content)])
            (by rw [hasSystemEntry_append, hpair]; simp [hasSystemEntry])
          simp only [List.append_assoc, List.cons_append, List.nil_append] at hx hllm2 ⊢
          simp [hllm2]
          simpa using hx

theorem hasSystemEntry_process (env : TurnEnv) (h0 : List Msg)
    (h : hasSystemEntry h0 = false) :
    hasSystemEntry (process_voice_input env h0).history = false := by
  unfold process_voice_input
  cases transcribe_audio env with
  | none => simpa using h
  | some text =>
    by_cases ht : text = "" <;> simp [ht]
    · exact h
    · exact hasSystemEntry_chat env h0 text h

theorem hasSystemEntry_step (st : SessionState) (msg : InMsg) (env : TurnEnv)
    (h : hasSystemEntry st.history = false) :
    hasSystemEntry (session_step st msg env).1.history = false := by
  cases msg with
  | bytes chunk => simpa [session_step] using h
  | audioEnd =>
    by_cases hb : st.buffer.length > 0 <;> simp [session_step, hb]
    · exact hasSystemEntry_process env st.history h
    · exact h
  | reset => simp [session_step, hasSystemEntry]
  | other => simpa [session_step] using h

theorem hasSystemEntry_run :
    ∀ (trace : List (InMsg × TurnEnv)) (st : SessionState),
      hasSystemEntry st.history = false →
      hasSystemEntry (session_run st trace).1.history = false
  | [], st, h => by simpa [session_run] using h
  | (m, env) :: rest, st, h => by
    simp only [session_run]
    exact hasSystemEntry_run rest _ (hasSystemEntry_step st m env h)

theorem trimHistory_length_le (l : List Msg) : (trimHistory l).length ≤ 10 := by
  unfold trimHistory
  split
  · simp only [List.length_drop]
    omega
  · omega

theorem length_append_pos_left (a b : String) (h : 0 < a.length) :
    0 < (a ++ b).length := by
  rw [String.length_append]
  omega

/-- Whether the first reasoning call succeeds and carries a tool call whose
arguments string parses as JSON — exactly the condition under which
`chat_with_llm` reaches the follow-up reasoning call. -/
def firstToolParsed (env : TurnEnv) (h0 : List Msg) (u : String) : Bool :=
  match env.llm (payloadMessages (h0 ++ [Msg.user u])) with
  | .fail => false
  | .ok m =>
    match m.tool_calls with
    | [] => false
    | tc :: _ => tc.argumentsJson.isSome

/- Concrete environments used as witnesses and counterexamples. -/

/-- A fully successful turn: transcription "hi", a plain text reply, working
synthesis. -/
def cEnvOk : TurnEnv :=
  ⟨some (some "hi"), fun _ => .ok ⟨some (some "hello there"), []⟩, "",
   fun _ => .exc "boom", fun _ => some [1, 2]⟩

/-- The transcription call raises (returns `None`). -/
def cEnvSttFail : TurnEnv :=
  ⟨none, fun _ => .ok ⟨some (some "hello there"), []⟩, "",
   fun _ => .exc "boom", fun _ => some [1, 2]⟩

/-- The transcription call returns the empty string. -/
def cEnvSttEmpty : TurnEnv :=
  ⟨some (some ""), fun _ => .ok ⟨some (some "hello there"), []⟩, "",
   fun _ => .exc "boom", fun _ => some [1, 2]⟩

/-- Every reasoning call fails. -/
def cEnvLLMFail : TurnEnv :=
  ⟨some (some "hi"), fun _ => .fail, "", fun _ => .exc "boom",
   fun _ => some [1, 2]⟩

/-- The reasoning response has `content: null` and no tool calls. -/
def cEnvContentNull : TurnEnv :=
  ⟨some (some "hi"), fun _ => .ok ⟨some none, []⟩, "", fun _ => .exc "boom",
   fun _ => some [1, 2]⟩

/-- The reasoning response lacks the `content` key and has no tool calls. -/
def cEnvContentAbsent : TurnEnv :=
  ⟨some (some "hi"), fun _ => .ok ⟨none, []⟩, "", fun _ => .exc "boom",
   fun _ => some [1, 2]⟩

/-- The reasoning response carries a tool call whose `arguments` string is not
valid JSON. -/
def cEnvBadArgs : TurnEnv :=
  ⟨some (some "hi"), fun _ => .ok ⟨none, [⟨"id1", "get_weather", none⟩]⟩, "",
   fun _ => .exc "boom", fun _ => some [1, 2]⟩

/-- A conversation history already at the 10-entry cap. -/
def cTenUsers : List Msg := List.replicate 10 (Msg.user "u")

/-- Claim C1: for every turn-end control message received when the audio
buffer is non-empty, the session emits exactly the event sequence
`processing`, one terminal event (`audio_response` or `error`), `ready`, and
the audio buffer is empty afterward, regardless of the pipeline outcome. -/
theorem claim1_turn_end_events (st : SessionState) (env : TurnEnv)
    (h : st.buffer ≠ []) :
    ∃ t, ((∃ a, t = Event.audioResponse a) ∨ t = Event.errorEvent errorMessage) ∧
      session_step st InMsg.audioEnd env =
        (⟨(process_voice_input env st.history).history, []⟩,
         [Event.statusProcessing, t, Event.statusReady]) := by
  have hb : st.buffer.length > 0 := List.length_pos.mpr h
  cases ha : (process_voice_input env st.history).audio with
  | none =>
    exact ⟨Event.errorEvent errorMessage, Or.inr rfl,
      by simp [session_step, hb, ha]⟩
  | some a =>
    by_cases hlen : a.length > 0
    · exact ⟨Event.audioResponse a, Or.inl ⟨a, rfl⟩,
        by simp [session_step, hb, ha, hlen]⟩
    · exact ⟨Event.errorEvent errorMessage, Or.inr rfl,
        by simp [session_step, hb, ha, hlen]⟩

/-- Witness for C1 at a concrete non-empty buffer and a failing transcription. -/
theorem claim1_witness :
    ∃ t, ((∃ a, t = Event.audioResponse a) ∨ t = Event.errorEvent errorMessage) ∧
      session_step ⟨[], [0]⟩ InMsg.audioEnd cEnvSttFail =
        (⟨(process_voice_input cEnvSttFail []).history, []⟩,
         [Event.statusProcessing, t, Event.statusReady]) :=
  claim1_turn_end_events ⟨[], [0]⟩ cEnvSttFail (by decide)

/-- Counterexample to claim C2: with a non-empty buffer and a transcription
that returns the empty string, the turn-end does NOT emit zero events — the
session emits the processing status, an error event, and the ready status. -/
theorem claim2_counterexample :
    (session_step ⟨[], [0]⟩ InMsg.audioEnd cEnvSttEmpty).2 =
      [Event.statusProcessing, Event.errorEvent errorMessage,
       Event.statusReady] ∧
    (session_step ⟨[], [0]⟩ InMsg.audioEnd cEnvSttEmpty).2 ≠ [] := by
  constructor
  · rfl
  · decide

/-- Claim C2 (amended): for every turn whose transcription returns the empty
string, the pipeline stops before reasoning and synthesis (no audio, history
unchanged), but the session still emits events for that turn-end: a
processing status, an error event, and a ready status — the empty
transcription is not distinguished from a failure at the session level. -/
theorem claim2_empty_transcription (st : SessionState) (env : TurnEnv)
    (ht : transcribe_audio env = some "") (hb : st.buffer ≠ []) :
    process_voice_input env st.history = ⟨none, st.history⟩ ∧
    session_step st InMsg.audioEnd env =
      (⟨st.history, []⟩,
       [Event.statusProcessing, Event.errorEvent errorMessage,
        Event.statusReady]) := by
  have hp : process_voice_input env st.history = ⟨none, st.history⟩ := by
    simp [process_voice_input, ht]
  have hlen : st.buffer.length > 0 := List.length_pos.mpr hb
  exact ⟨hp, by simp [session_step, hlen, hp]⟩

/-- Witness for the amended C2 at a concrete input. -/
theorem claim2_witness :
    process_voice_input cEnvSttEmpty [] = ⟨none, []⟩ ∧
    session_step ⟨[], [0]⟩ InMsg.audioEnd cEnvSttEmpty =
      (⟨[], []⟩,
       [Event.statusProcessing, Event.errorEvent errorMessage,
        Event.statusReady]) :=
  claim2_empty_transcription ⟨[], [0]⟩ cEnvSttEmpty (by decide) (by decide)

/-- Counterexample to claim C3: starting a turn from a 10-entry history, a
turn whose reasoning call fails completes with 11 history entries — the trim
is not applied on the failure path, so history exceeds 10 after that turn. -/
theorem claim3_counterexample :
    10 < (session_step ⟨cTenUsers, [0]⟩ InMsg.audioEnd cEnvLLMFail).1.history.length := by
  decide

/-- Claim C3 (amended): a turn that completes without the reasoning-step
fallback leaves at most 10 history entries (the trim runs on every
non-exception path); a turn that fails inside the reasoning step skips the
trim and appends up to 3 entries, so history length is only bounded by
`max (previous + 3) 10`. -/
theorem claim3_trim_on_success (env : TurnEnv) (h0 : List Msg) (u : String) :
    ((chat_with_llm env h0 u).reply ≠ some fallbackError →
      (chat_with_llm env h0 u).history.length ≤ 10) ∧
    (chat_with_llm env h0 u).history.length ≤ max (h0.length + 3) 10 := by
  cases hllm : env.llm (payloadMessages (h0 ++ [Msg.user u])) with
  | fail =>
    have hlen : (chat_with_llm env h0 u).history.length = h0.length + 1 := by
      simp [chat_with_llm, hllm]
    constructor
    · intro hr
      exact absurd (by simp [chat_with_llm, hllm]) hr
    · omega
  | ok message =>
    cases htc : message.tool_calls with
    | nil =>
      have hlen : (chat_with_llm env h0 u).history.length ≤ 10 := by
        simp only [chat_with_llm, hllm, htc]
        exact trimHistory_length_le _
      exact ⟨fun _ => hlen, le_trans hlen (le_max_right _ _)⟩
    | cons tc rest =>
      cases hargs : tc.argumentsJson with
      | none =>
        have hlen : (chat_with_llm env h0 u).history.length = h0.length + 1 := by
          simp [chat_with_llm, hllm, htc, hargs]
        constructor
        · intro hr
          exact absurd (by simp [chat_with_llm, hllm, htc, hargs]) hr
        · omega
      | some args =>
        cases hllm2 : env.llm (payloadMessagesFollowUp (h0 ++
            [Msg.user u, Msg.assistantTool (tc :: rest),
             Msg.tool tc.id tc.fnName
               (execute_tool_call env.apiKey env.weather tc.fnName args)])) with
        | fail =>
          have hlen : (chat_with_llm env h0 u).history.length = h0.length + 3 := by
            simp only [chat_with_llm, hllm, htc, hargs]
            simp only [List.append_assoc, List.cons_append, List.nil_append] at hllm2 ⊢
            simp [hllm2]
          constructor
          · intro hr
            refine absurd ?_ hr
            simp only [chat_with_llm, hllm, htc, hargs]
            simp only [List.append_assoc, List.cons_append, List.nil_append] at hllm2 ⊢
            simp [hllm2]
          · omega
        | ok m2 =>
          have hlen : (chat_with_llm env h0 u).history.length ≤ 10 := by
            simp only [chat_with_llm, hllm, htc, hargs]
            simp only [List.append_assoc, List.cons_append, List.nil_append] at hllm2 ⊢
            simp [hllm2]
            exact trimHistory_length_le _
          exact ⟨fun _ => hlen, le_trans hlen (le_max_right _ _)⟩

/-- Witness for the amended C3 at a concrete successful turn. -/
theorem claim3_witness :
    (chat_with_llm cEnvOk [] "hi").history.length ≤ 10 :=
  (claim3_trim_on_success cEnvOk [] "hi").1 (by decide)

/-- Counterexample to claim C4: a first response carrying a tool call whose
arguments string is malformed JSON leads to exactly one reasoning call, not
two, even though the response carries a tool call. -/
theorem claim4_counterexample :
    cEnvBadArgs.llm (payloadMessages ([] ++ [Msg.user "hi"])) =
      LLMCallResult.ok ⟨none, [⟨"id1", "get_weather", none⟩]⟩ ∧
    (chat_with_llm cEnvBadArgs [] "hi").llmCalls = 1 := by
  constructor
  · rfl
  · rfl

/-- Claim C4 (amended): the Reasoning Step performs at most two
reasoning-service calls per turn: exactly two when the first call succeeds
and carries a tool call whose arguments parse, and exactly one otherwise
(no tool call, first call failed, or malformed tool-call arguments); the
follow-up response never triggers further calls even if it requests another
tool call. -/
theorem claim4_call_count (env : TurnEnv) (h0 : List Msg) (u : String) :
    (chat_with_llm env h0 u).llmCalls =
      (if firstToolParsed env h0 u then 2 else 1) ∧
    (chat_with_llm env h0 u).llmCalls ≤ 2 := by
  cases hllm : env.llm (payloadMessages (h0 ++ [Msg.user u])) with
  | fail => simp [chat_with_llm, firstToolParsed, hllm]
  | ok message =>
    cases htc : message.tool_calls with
    | nil => simp [chat_with_llm, firstToolParsed, hllm, htc]
    | cons tc rest =>
      cases hargs : tc.argumentsJson with
      | none => simp [chat_with_llm, firstToolParsed, hllm, htc, hargs]
      | some args =>
        cases hllm2 : env.llm (payloadMessagesFollowUp (h0 ++
            [Msg.user u, Msg.assistantTool (tc :: rest),
             Msg.tool tc.id tc.fnName
               (execute_tool_call env.apiKey env.weather tc.fnName args)])) with
        | fail =>
          simp only [chat_with_llm, firstToolParsed, hllm, htc, hargs]
          simp only [List.append_assoc, List.cons_append, List.nil_append] at hllm2 ⊢
          simp [hllm2]
        | ok m2 =>
          simp only [chat_with_llm, firstToolParsed, hllm, htc, hargs]
          simp only [List.append_assoc, List.cons_append, List.nil_append] at hllm2 ⊢
          simp [hllm2]

/-- Claim C5: Tool Registry execute is total: for every tool name and
argument mapping — under any weather-service behaviour (missing credential,
404 not-found, other HTTP error, generic failure, or success) — it returns
non-empty result text (it never raises, being a total function), and an
unregistered name yields the literal unknown-tool text. -/
theorem claim5_execute_total (apiKey : String) (weather : String → WeatherResp)
    (name : String) (args : List (String × String)) :
    0 < (execute_tool_call apiKey weather name args).length ∧
    (name ≠ "get_weather" →
      execute_tool_call apiKey weather name args = "Unknown tool: " ++ name) := by
  constructor
  · unfold execute_tool_call
    split
    · unfold get_weather
      split
      · decide
      · split
        · repeat apply length_append_pos_left
          decide
        · split
          · repeat apply length_append_pos_left
            decide
          · repeat apply length_append_pos_left
            decide
        · repeat apply length_append_pos_left
          decide
    · apply length_append_pos_left
      decide
  · intro h
    unfold execute_tool_call
    rw [if_neg h]

/-- Witness for C5 at an unregistered tool name and a failing weather service. -/
theorem claim5_witness :
    0 < (execute_tool_call "" (fun _ => WeatherResp.exc "boom")
          "frobnicate" []).length ∧
    execute_tool_call "" (fun _ => WeatherResp.exc "boom") "frobnicate" [] =
      "Unknown tool: " ++ "frobnicate" :=
  ⟨(claim5_execute_total "" (fun _ => WeatherResp.exc "boom") "frobnicate" []).1,
   (claim5_execute_total "" (fun _ => WeatherResp.exc "boom") "frobnicate" []).2
     (by decide)⟩

/-- Claim C6: every failure contacting the reasoning service — first call
failing, malformed tool-call arguments, or follow-up call failing — makes
`chat_with_llm` return the fixed fallback reply with history exactly as
mutated up to the failure point (no rollback, no trim, no retry); and for any
non-empty transcription the pipeline hands whatever reply the reasoning step
produced (the fallback included) to synthesis. -/
theorem claim6_failure_fallback (env : TurnEnv) (h0 : List Msg) (u : String) :
    (env.llm (payloadMessages (h0 ++ [Msg.user u])) = LLMCallResult.fail →
      chat_with_llm env h0 u = ⟨some fallbackError, h0 ++ [Msg.user u], 1⟩) ∧
    (∀ m tc rest, env.llm (payloadMessages (h0 ++ [Msg.user u])) = LLMCallResult.ok m →
      m.tool_calls = tc :: rest → tc.argumentsJson = none →
      chat_with_llm env h0 u = ⟨some fallbackError, h0 ++ [Msg.user u], 1⟩) ∧
    (∀ m tc rest args, env.llm (payloadMessages (h0 ++ [Msg.user u])) = LLMCallResult.ok m →
      m.tool_calls = tc :: rest → tc.argumentsJson = some args →
      env.llm (payloadMessagesFollowUp (h0 ++
        [Msg.user u, Msg.assistantTool (tc :: rest),
         Msg.tool tc.id tc.fnName
           (execute_tool_call env.apiKey env.weather tc.fnName args)])) =
        LLMCallResult.fail →
      chat_with_llm env h0 u =
        ⟨some fallbackError,
         h0 ++ [Msg.user u, Msg.assistantTool (tc :: rest),
           Msg.tool tc.id tc.fnName
             (execute_tool_call env.apiKey env.weather tc.fnName args)], 2⟩) ∧
    (∀ t, transcribe_audio env = some t → t ≠ "" →
      (process_voice_input env h0).audio =
        env.tts (chat_with_llm env h0 t).reply) := by
  refine ⟨?_, ?_, ?_, ?_⟩
  · intro hllm
    simp [chat_with_llm, hllm]
  · intro m tc rest hllm htc hargs
    simp [chat_with_llm, hllm, htc, hargs]
  · intro m tc rest args hllm htc hargs hllm2
    simp only [chat_with_llm, hllm, htc, hargs]
    simp only [List.append_assoc, List.cons_append, List.nil_append] at hllm2 ⊢
    simp [hllm2]
  · intro t ht hne
    simp [process_voice_input, ht, hne]

/-- Witness for C6: a failing reasoning call yields the fallback reply with
only the user entry appended, and the pipeline passes that reply to
synthesis. -/
theorem claim6_witness :
    chat_with_llm cEnvLLMFail [] "hi" =
      ⟨some fallbackError, [] ++ [Msg.user "hi"], 1⟩ ∧
    (process_voice_input cEnvLLMFail []).audio =
      cEnvLLMFail.tts (chat_with_llm cEnvLLMFail [] "hi").reply :=
  ⟨(claim6_failure_fallback cEnvLLMFail [] "hi").1 rfl,
   (claim6_failure_fallback cEnvLLMFail [] "hi").2.2.2 "hi" rfl (by decide)⟩

/-- Counterexample to claim C7: when the final response's message carries
`content: null` (key present, value null), the reply is `None`, not the
fixed no-content fallback phrase — Python's `dict.get` substitutes the
default only when the key is absent. -/
theorem claim7_counterexample :
    cEnvContentNull.llm (payloadMessages ([] ++ [Msg.user "hi"])) =
      LLMCallResult.ok ⟨some none, []⟩ ∧
    (chat_with_llm cEnvContentNull [] "hi").reply = none ∧
    (chat_with_llm cEnvContentNull [] "hi").reply ≠ some fallbackNoContent := by
  refine ⟨rfl, rfl, ?_⟩
  decide

/-- First reasoning call: a tool call with parseable arguments; follow-up
reasoning call: a message lacking the `content` key. The oracle tells the two
calls apart by the request's message-list length (2 for the first request,
4 for the follow-up). -/
def cEnvToolThenAbsent : TurnEnv :=
  ⟨some (some "hi"),
   fun msgs =>
     if msgs.length ≤ 2 then
       .ok ⟨none, [⟨"id1", "get_weather", some [("location", "Tokyo")]⟩]⟩
     else .ok ⟨none, []⟩,
   "", fun _ => .exc "boom", fun _ => some [1, 2]⟩

/-- Claim C7 (amended): for every final reasoning response — whether the turn
took the no-tool route (the first response, carrying no tool calls) or the
tool route (the follow-up response after a tool call with parseable
arguments) — the reply is `contentOrFallback` of that final message, i.e. the
fixed fallback phrase exactly when the `content` key is absent, a null reply
when the key is present but null, and the string itself otherwise. -/
theorem claim7_content_fallback (env : TurnEnv) (h0 : List Msg) (u : String) :
    (∀ m, env.llm (payloadMessages (h0 ++ [Msg.user u])) = LLMCallResult.ok m →
      m.tool_calls = [] →
      (chat_with_llm env h0 u).reply = contentOrFallback m.content) ∧
    (∀ m tc rest args m2,
      env.llm (payloadMessages (h0 ++ [Msg.user u])) = LLMCallResult.ok m →
      m.tool_calls = tc :: rest → tc.argumentsJson = some args →
      env.llm (payloadMessagesFollowUp (h0 ++
        [Msg.user u, Msg.assistantTool (tc :: rest),
         Msg.tool tc.id tc.fnName
           (execute_tool_call env.apiKey env.weather tc.fnName args)])) =
        LLMCallResult.ok m2 →
      (chat_with_llm env h0 u).reply = contentOrFallback m2.content) ∧
    (∀ c : Option (Option String),
      (c = none → contentOrFallback c = some fallbackNoContent) ∧
      (c = some none → contentOrFallback c = none) ∧
      (∀ s, c = some (some s) → contentOrFallback c = some s)) := by
  refine ⟨?_, ?_, ?_⟩
  · intro m hllm htc
    simp [chat_with_llm, hllm, htc]
  · intro m tc rest args m2 hllm htc hargs hllm2
    simp only [chat_with_llm, hllm, htc, hargs]
    simp only [List.append_assoc, List.cons_append, List.nil_append] at hllm2 ⊢
    simp [hllm2]
  · intro c
    refine ⟨?_, ?_, ?_⟩
    · intro hc; rw [hc]; rfl
    · intro hc; rw [hc]; rfl
    · intro s hc; rw [hc]; rfl

/-- Witness for the amended C7: an absent `content` key yields the fallback
phrase on both routes — a first response with no tool calls, and a follow-up
response after a tool call. -/
theorem claim7_witness :
    (chat_with_llm cEnvContentAbsent [] "hi").reply =
      contentOrFallback (none : Option (Option String)) ∧
    (chat_with_llm cEnvToolThenAbsent [] "hi").reply =
      contentOrFallback (none : Option (Option String)) ∧
    contentOrFallback (none : Option (Option String)) = some fallbackNoContent :=
  ⟨(claim7_content_fallback cEnvContentAbsent [] "hi").1 ⟨none, []⟩ rfl rfl,
   (claim7_content_fallback cEnvToolThenAbsent [] "hi").2.1
     ⟨none, [⟨"id1", "get_weather", some [("location", "Tokyo")]⟩]⟩
     ⟨"id1", "get_weather", some [("location", "Tokyo")]⟩ [] [("location", "Tokyo")]
     ⟨none, []⟩ rfl rfl rfl (by decide),
   ((claim7_content_fallback cEnvContentAbsent [] "hi").2.2
     (none : Option (Option String))).1 rfl⟩

/-- The trim is precisely the suffix keeping the most recent
`min (length) 10` entries: it returns a contiguous suffix of its input whose
length is the input's length capped at 10 (a suffix of a given length is
unique, so this pins the trim completely). -/
theorem trimHistory_suffix_pin (l : List Msg) :
    trimHistory l <:+ l ∧ (trimHistory l).length = min l.length 10 := by
  unfold trimHistory
  split
  · constructor
    · exact List.drop_suffix _ _
    · simp only [List.length_drop]
      omega
  · constructor
    · exact List.suffix_refl l
    · omega

/-- Every completed `chat_with_llm` leaves the history equal to the previous
history with at most 4 new entries appended at the end, either as is
(exception paths) or passed through the trim (non-exception paths). -/
theorem chat_history_shape (env : TurnEnv) (h0 : List Msg) (u : String) :
    ∃ appended : List Msg, appended.length ≤ 4 ∧
      ((chat_with_llm env h0 u).history = h0 ++ appended ∨
       (chat_with_llm env h0 u).history = trimHistory (h0 ++ appended)) := by
  cases hllm : env.llm (payloadMessages (h0 ++ [Msg.user u])) with
  | fail =>
    exact ⟨[Msg.user u], by simp, Or.inl (by simp [chat_with_llm, hllm])⟩
  | ok message =>
    cases htc : message.tool_calls with
    | nil =>
      refine ⟨[Msg.user u, Msg.assistant (contentOrFallback message.content)],
        by simp, Or.inr ?_⟩
      simp only [chat_with_llm, hllm, htc, List.append_assoc, List.cons_append,
        List.nil_append]
    | cons tc rest =>
      cases hargs : tc.argumentsJson with
      | none =>
        exact ⟨[Msg.user u], by simp,
          Or.inl (by simp [chat_with_llm, hllm, htc, hargs])⟩
      | some args =>
        cases hllm2 : env.llm (payloadMessagesFollowUp (h0 ++
            [Msg.user u, Msg.assistantTool (tc :: rest),
             Msg.tool tc.id tc.fnName
               (execute_tool_call env.apiKey env.weather tc.fnName args)])) with
        | fail =>
          refine ⟨[Msg.user u, Msg.assistantTool (tc :: rest),
             Msg.tool tc.id tc.fnName
               (execute_tool_call env.apiKey env.weather tc.fnName args)],
            by simp, Or.inl ?_⟩
          simp only [chat_with_llm, hllm, htc, hargs]
          simp only [List.append_assoc, List.cons_append, List.nil_append] at hllm2 ⊢
          simp [hllm2]
        | ok m2 =>
          refine ⟨[Msg.user u, Msg.assistantTool (tc :: rest),
             Msg.tool tc.id tc.fnName
               (execute_tool_call env.apiKey env.weather tc.fnName args),
             Msg.assistant (contentOrFallback m2.content)],
            by simp, Or.inr ?_⟩
          simp only [chat_with_llm, hllm, htc, hargs]
          simp only [List.append_assoc, List.cons_append, List.nil_append] at hllm2 ⊢
          simp [hllm2]

/-- `process_voice_input` leaves the history unchanged (appending nothing) or
defers to the reasoning step's append-then-maybe-trim shape. -/
theorem process_history_shape (env : TurnEnv) (h0 : List Msg) :
    ∃ appended : List Msg, appended.length ≤ 4 ∧
      ((process_voice_input env h0).history = h0 ++ appended ∨
       (process_voice_input env h0).history = trimHistory (h0 ++ appended)) := by
  unfold process_voice_input
  cases htr : transcribe_audio env with
  | none => exact ⟨[], by simp, Or.inl (by simp)⟩
  | some t =>
    by_cases ht : t = ""
    · exact ⟨[], by simp, Or.inl (by simp [ht])⟩
    · simpa [ht] using chat_history_shape env h0 t

/-- Claim C8: in every session state reachable from a fresh connection, each
tool-invocation entry in the history (an assistant entry carrying tool calls
and no text) is immediately followed by its tool-result entry bearing the
same correlation id and tool name — the pairing survives every operation
(appends, the trim's suffix-keep, and reset). -/
theorem claim8_tool_pairing (trace : List (InMsg × TurnEnv)) :
    toolPaired (session_run initialSession trace).1.history = true :=
  toolPaired_run trace initialSession rfl

/-- Claim C9: when the requested tool is `get_weather` and the argument
mapping lacks the `location` key, execution does not fail: the weather
capability is invoked with the empty string as the location and its result
is returned as usual. -/
theorem claim9_missing_location (apiKey : String)
    (weather : String → WeatherResp) (args : List (String × String))
    (h : args.lookup "location" = none) :
    execute_tool_call apiKey weather "get_weather" args =
      get_weather apiKey weather "" := by
  simp [execute_tool_call, h]

/-- Witness for C9 at the empty argument mapping. -/
theorem claim9_witness :
    execute_tool_call "" (fun _ => WeatherResp.exc "boom") "get_weather" [] =
      get_weather "" (fun _ => WeatherResp.exc "boom") "" :=
  claim9_missing_location "" (fun _ => WeatherResp.exc "boom") [] rfl

/-- Claim C10: every session operation either appends at most 4 new entries
at the end of the history, does the same and then applies the trim — which is
pinned to be exactly the contiguous suffix of the most recent
`min (length) 10` entries — or empties the history (reset); hence the
retained entries are always a contiguous suffix of the old history followed
by the newly appended ones, in order. And no reachable history ever stores
the fixed system instruction as an entry. -/
theorem claim10_history_ops :
    (∀ l : List Msg, trimHistory l <:+ l ∧ (trimHistory l).length = min l.length 10) ∧
    (∀ (st : SessionState) (msg : InMsg) (env : TurnEnv),
      ∃ appended : List Msg, appended.length ≤ 4 ∧
        ((session_step st msg env).1.history = st.history ++ appended ∨
         (session_step st msg env).1.history = trimHistory (st.history ++ appended) ∨
         (session_step st msg env).1.history = [])) ∧
    (∀ trace : List (InMsg × TurnEnv),
      hasSystemEntry (session_run initialSession trace).1.history = false) := by
  refine ⟨trimHistory_suffix_pin, ?_, ?_⟩
  · intro st msg env
    cases msg with
    | bytes chunk => exact ⟨[], by simp, Or.inl (by simp [session_step])⟩
    | audioEnd =>
      by_cases hb : st.buffer.length > 0
      · obtain ⟨appended, hlen, hk⟩ := process_history_shape env st.history
        refine ⟨appended, hlen, ?_⟩
        cases hk with
        | inl h => exact Or.inl (by simp [session_step, hb, h])
        | inr h => exact Or.inr (Or.inl (by simp [session_step, hb, h]))
      · exact ⟨[], by simp, Or.inl (by simp [session_step, hb])⟩
    | reset => exact ⟨[], by simp, Or.inr (Or.inr (by simp [session_step]))⟩
    | other => exact ⟨[], by simp, Or.inl (by simp [session_step])⟩
  · intro trace
    exact hasSystemEntry_run trace initialSession rfl

end VoiceBackend
